import Mathlib

/-!
Shallow embedding of `src/SDK/FAI_python/x64/setup.py`: the build-support
helpers of the FAI_python packaging script (version parsing, platform
profile selection, SWIG location, directory cleaning, runtime staging,
package-data enumeration and the debug-configuration mutation), together
with theorems checking the specification's claims about them.

Strings are modelled as Lean `String`/`List Char`; the filesystem is
modelled explicitly (a set of paths for the flat staging model, a tree of
entries for the package-data walk); subprocess and `shutil.which` results
are supplied through explicit environments; fallible Python code returns
`Option`/`Except` (an `Except.error` models an uncaught Python exception).
-/

namespace FaiSetup

/-! ### Character classes (ASCII fragments of the regex classes used) -/

/-- The class `[0-9a-f]` from the commit-hash part `-g[0-9a-f]+` of
`rx_git_ver` (setup.py line 243).  Lowercase only, as in the source. -/
def isLowerHex (c : Char) : Bool := c.isDigit || ('a' ≤ c && c ≤ 'f')

/-- The class `[a-zA-Z0-9]` used by the local-build segment of
`rx_git_ver` (setup.py line 242). -/
def isAlnumAscii (c : Char) : Bool :=
  c.isDigit || ('a' ≤ c && c ≤ 'z') || ('A' ≤ c && c ≤ 'Z')

/-- The class `[\d\.]` of the SWIG version capture
`SWIG Version ([\d\.]+)` (setup.py line 129). -/
def isVerChar (c : Char) : Bool := c.isDigit || c == '.'

/-- Python `str.strip()`: drop whitespace from both ends
(setup.py line 231). -/
def pyStrip (l : List Char) : List Char :=
  ((l.dropWhile Char.isWhitespace).reverse.dropWhile Char.isWhitespace).reverse

/-! ### `BuildSupport.get_git_version` (setup.py lines 223-269)

The two regular expressions of `get_git_version` are embedded as
deterministic longest-munch parsers over `List Char`.  For these two
patterns greedy parsing agrees with Python's backtracking `re` semantics:
after every greedy sub-match the only admissible continuation characters
(`+`, `-`, end of string) are disjoint from the characters the greedy
part consumes, so no backtracking can rescue a failed continuation. -/

/-- One `\.\d+` group: a dot followed by at least one digit, consumed
greedily.  Returns the consumed characters and the rest. -/
def parseDotNum (cs : List Char) : Option (List Char × List Char) :=
  match cs with
  | [] => none
  | c :: rest =>
    if c = '.' then
      if rest.takeWhile Char.isDigit = [] then none
      else some ('.' :: rest.takeWhile Char.isDigit, rest.dropWhile Char.isDigit)
    else none

/-- `(?:\.\d+)?`: an optional `\.\d+` group. -/
def tryDotNum (cs : List Char) : List Char × List Char :=
  match parseDotNum cs with
  | some x => x
  | none => ([], cs)

/-- `(?:(?:a|b|rc)\d*)?`: the optional pre-release suffix of both version
regexes (setup.py lines 233 and 241). -/
def parsePre (cs : List Char) : List Char × List Char :=
  match cs with
  | [] => ([], [])
  | c :: rest =>
    if c = 'a' ∨ c = 'b' then
      (c :: rest.takeWhile Char.isDigit, rest.dropWhile Char.isDigit)
    else if c = 'r' then
      match rest with
      | [] => ([], cs)
      | c2 :: rest2 =>
        if c2 = 'c' then
          ('r' :: 'c' :: rest2.takeWhile Char.isDigit, rest2.dropWhile Char.isDigit)
        else ([], cs)
    else ([], cs)

/-- The shared version core `\d+(?:\.\d+){2,3}(?:(?:a|b|rc)\d*)?` of both
regexes: three or four dotted numeric components plus the optional
pre-release suffix.  Returns `(consumed, rest)`. -/
def parseRelCore (cs : List Char) : Option (List Char × List Char) :=
  if cs.takeWhile Char.isDigit = [] then none
  else
    match parseDotNum (cs.dropWhile Char.isDigit) with
    | none => none
    | some (c2, r2) =>
      match parseDotNum r2 with
      | none => none
      | some (c3, r3) =>
        some (cs.takeWhile Char.isDigit ++ c2 ++ c3 ++
                (tryDotNum r3).1 ++ (parsePre (tryDotNum r3).2).1,
              (parsePre (tryDotNum r3).2).2)

/-- `m_rel`: the exact-release-tag pattern
`^\d+(?:\.\d+){2,3}(?:(?:a|b|rc)\d*)?$` (setup.py lines 232-235). -/
def matchRel (cs : List Char) : Bool :=
  match parseRelCore cs with
  | some (_, r) => r.isEmpty
  | none => false

/-- `(?:(?:\+[a-zA-Z0-9](?:[a-zA-Z0-9\.]*[a-zA-Z0-9]?))?)`: the optional
local-build segment of `rx_git_ver` (setup.py line 242).  Consumes the
segment when present, otherwise leaves the input unchanged. -/
def skipPlus (cs : List Char) : List Char :=
  match cs with
  | c1 :: c2 :: rest =>
    if c1 = '+' ∧ isAlnumAscii c2 = true then
      rest.dropWhile (fun ch => isAlnumAscii ch || ch == '.')
    else cs
  | _ => cs

/-- `(?:-(\d+)-g[0-9a-f]+)?`: the optional commit-distance segment of
`rx_git_ver` (setup.py line 243).  Returns the captured distance digits
(group 2) when the whole segment matches, otherwise leaves the input
unchanged. -/
def parseDist (cs : List Char) : Option (List Char) × List Char :=
  match cs with
  | [] => (none, [])
  | c :: rest =>
    if c = '-' then
      if rest.takeWhile Char.isDigit = [] then (none, c :: rest)
      else
        match rest.dropWhile Char.isDigit with
        | c1 :: c2 :: r3 =>
          if c1 = '-' ∧ c2 = 'g' then
            if r3.takeWhile isLowerHex = [] then (none, c :: rest)
            else (some (rest.takeWhile Char.isDigit), r3.dropWhile isLowerHex)
          else (none, c :: rest)
        | _ => (none, c :: rest)
    else (none, c :: rest)

/-- `(?:-dirty)?`: the optional dirty suffix of `rx_git_ver`
(setup.py line 244). -/
def skipDirty (cs : List Char) : List Char :=
  match cs with
  | '-' :: 'd' :: 'i' :: 'r' :: 't' :: 'y' :: rest => rest
  | _ => cs

/-- `m_dev`: the full development-descriptor pattern `rx_git_ver`
(setup.py lines 238-248), anchored at both ends.  On success returns
(group 1 = base version, group 2 = commit-distance digits or `none`). -/
def parseDevM (cs : List Char) : Option (List Char × Option (List Char)) :=
  match parseRelCore cs with
  | none => none
  | some (g1, r) =>
    let r1 := skipPlus r
    let d := parseDist r1
    let r3 := skipDirty d.2
    if r3 = [] then some (g1, d.1) else none

/-- The clock reading taken by `datetime.datetime.now()`
(setup.py line 261). -/
structure Now where
  year : Nat
  month : Nat
  day : Nat
  hour : Nat
  minute : Nat
  second : Nat
deriving Repr, DecidableEq

/-- `(now - midnight).seconds`: seconds elapsed since midnight of the
current day (setup.py lines 262-263). -/
def todaysSeconds (n : Now) : Nat := 3600 * n.hour + 60 * n.minute + n.second

/-- The date-based fallback `"%d.%d.%d.dev%d"` (setup.py lines 264-269). -/
def dateFallback (n : Now) : String :=
  toString n.year ++ "." ++ toString n.month ++ "." ++ toString n.day ++
    ".dev" ++ toString (todaysSeconds n)

/-- `BuildSupport.get_git_version` (setup.py lines 223-269).
`gitDescribe = none` models a failing `git describe` call (`OSError` /
`CalledProcessError`); `some out` models its stdout.  An unparseable
descriptor raises `OSError` which the surrounding handler turns into the
date-based fallback. -/
def get_git_version (gitDescribe : Option String) (now : Now) : String :=
  match gitDescribe with
  | none => dateFallback now
  | some out =>
    let s := pyStrip out.data
    if matchRel s then String.mk s
    else
      match parseDevM s with
      | some (g1, dist) => String.mk (g1 ++ ".dev".data ++ dist.getD ['0'])
      | none => dateFallback now

/-! ### `BuildSupport.BinPath` and `BuildSupport.make`
(setup.py lines 43-49 and 278-285) -/

/-- The `BinPath` dictionary literal (setup.py lines 43-49). -/
def binPathTable : List ((String × Nat) × String) :=
  [(("Windows", 32), "Win32"),
   (("Windows", 64), "x64"),
   (("Linux", 32), "lib"),
   (("Linux", 64), "lib64"),
   (("Darwin", 64), "lib64")]

/-- The `BinPath` class-attribute lookup
`{...}[(get_platform(), get_machinewidth())]` (setup.py line 49).
`none` models the `KeyError` raised at class-definition time for a
(platform, width) pair outside the dictionary. -/
def binPath (plat : String) (width : Nat) : Option String :=
  List.lookup (plat, width) binPathTable

/-- The two concrete platform build-support classes. -/
inductive PlatformProfile where
  | windows
  | linux
deriving DecidableEq, Repr

/-- `BuildSupport.make` (setup.py lines 278-285).  The `else` branch only
calls `logging.error` (which logs without raising) and falls off the end
of the function, so an unsupported platform yields Python `None`,
modelled as `Option.none`. -/
def make (plat : String) : Option PlatformProfile :=
  if plat = "Windows" then some PlatformProfile.windows
  else if plat = "Linux" then some PlatformProfile.linux
  else none

/-! ### `BuildSupport.find_swig` / `is_supported_swig_version`
(setup.py lines 106-141) -/

/-- Outcomes of the external probes `find_swig` depends on:
`which` models `shutil.which` (line 110); `versionOutput` models
`subprocess.check_output([exe, "-version"])` (lines 122-125), with
`Except.error` standing for `CalledProcessError`/`FileNotFoundError`. -/
structure SwigEnv where
  which : String → Option String
  versionOutput : String → Except Unit String

/-- Python `str.split('.')` (setup.py line 133). -/
def splitOnDot : List Char → List (List Char)
  | [] => [[]]
  | c :: rest =>
    match splitOnDot rest with
    | [] => [[]]
    | r :: rs => if c = '.' then [] :: r :: rs else (c :: r) :: rs

/-- Decimal value of a digit string, as computed by Python `int`. -/
def natOfDigits (l : List Char) : Nat :=
  l.foldl (fun n c => 10 * n + (c.toNat - 48)) 0

/-- `tuple(map(int, res.group(1).split('.')))` (setup.py line 133).
`none` models the uncaught `ValueError` `int` raises on an empty part
(the capture `[\d\.]+` admits parts with no digits). -/
def parseVersionInts (l : List Char) : Option (List Nat) :=
  (splitOnDot l).mapM
    (fun p => if p ≠ [] ∧ p.all Char.isDigit then some (natOfDigits p) else none)

/-- The literal part of the pattern `SWIG Version ([\d\.]+)`. -/
def swigVerLit : List Char := "SWIG Version ".data

/-- `re.search(r"SWIG Version ([\d\.]+)", output)` (setup.py line 129):
the capture of the leftmost match, or `none`. -/
def searchSwigVersion : List Char → Option (List Char)
  | [] => none
  | c :: rest =>
    if swigVerLit.isPrefixOf (c :: rest) then
      if (List.drop swigVerLit.length (c :: rest)).takeWhile isVerChar = [] then
        searchSwigVersion rest
      else some ((List.drop swigVerLit.length (c :: rest)).takeWhile isVerChar)
    else searchSwigVersion rest

/-- Python tuple `<` on integer tuples (setup.py line 133):
lexicographic, a strict prefix is smaller. -/
def pyTupleLt : List Nat → List Nat → Bool
  | [], [] => false
  | [], _ :: _ => true
  | _ :: _, [] => false
  | a :: as', b :: bs' =>
    if a < b then true else if b < a then false else pyTupleLt as' bs'

/-- `BuildSupport.is_supported_swig_version` (setup.py lines 117-141).
`Except.ok b` is a normal boolean return; `Except.error ()` is the
uncaught `ValueError` from `int('')`. -/
def is_supported_swig_version (env : SwigEnv) (exe : Option String) :
    Except Unit Bool :=
  match exe with
  | none => Except.ok false
  | some exePath =>
    match env.versionOutput exePath with
    | Except.error _ => Except.ok false
    | Except.ok output =>
      match searchSwigVersion output.data with
      | none => Except.ok false
      | some verChars =>
        match parseVersionInts verChars with
        | none => Except.error ()
        | some ver => Except.ok (!pyTupleLt ver [3, 0, 12])

/-- How `find_swig` can fail: the final `RuntimeError` (setup.py line
115), or an exception propagating out of `is_supported_swig_version`. -/
inductive FindSwigError where
  | runtimeErr
  | uncaughtErr
deriving DecidableEq, Repr

/-- The candidate loop body of `BuildSupport.find_swig`
(setup.py lines 108-115). -/
def findFrom (env : SwigEnv) : List String → Except FindSwigError String
  | [] => Except.error FindSwigError.runtimeErr
  | c :: rest =>
    match is_supported_swig_version env (env.which c) with
    | Except.error _ => Except.error FindSwigError.uncaughtErr
    | Except.ok true => Except.ok ((env.which c).getD "")
    | Except.ok false => findFrom env rest

/-- The search list `["swig4.0", "swig"]` (setup.py line 109). -/
def swigCandidates : List String := ["swig4.0", "swig"]

/-- `BuildSupport.find_swig` (setup.py lines 106-115). -/
def find_swig (env : SwigEnv) : Except FindSwigError String :=
  findFrom env swigCandidates

/-! ### `BuildSupport.clean` and the `clean` pseudo-command
(setup.py lines 206-217 and 682-686)

Flat filesystem model: a `List String` of existing paths (directories and
files); `shutil.rmtree` removes a directory and everything below it. -/

/-- `GeneratedDir = os.path.join(".", "generated")` (setup.py line 61). -/
def GeneratedDir : String := "./generated"

/-- `PackageDir = os.path.join(".", "FAI_python")` (setup.py line 64). -/
def PackageDir : String := "./FAI_python"

/-- `p` is the directory `d` itself or a path below it. -/
def isUnder (d p : String) : Bool :=
  p == d || (d.data ++ ['/']).isPrefixOf p.data

/-- `shutil.rmtree(cdir, ignore_errors=True)` (setup.py line 214):
removes the directory and everything below it; no error if absent. -/
def rmtree (fs : List String) (d : String) : List String :=
  fs.filter (fun p => !isUnder d p)

/-- `os.makedirs` (setup.py lines 216-217): the directory exists
afterwards (called here only after the directory was removed). -/
def makedirs (fs : List String) (d : String) : List String := d :: fs

/-- `BuildSupport.clean` (setup.py lines 206-217). -/
def clean (fs : List String) (mode : String) (additionalDirs : List String) :
    List String :=
  if mode = "skip" then fs
  else
    let fs' := ([GeneratedDir, PackageDir] ++ additionalDirs).foldl rmtree fs
    if mode = "keep" then makedirs (makedirs fs' GeneratedDir) PackageDir
    else fs'

/-- The extra directories passed by the `clean` command branch
(setup.py line 685). -/
def cleanExtraDirs : List String := ["build", "FAI_python.egg-info", "dist"]

/-- The externally observable steps of the `__main__` block
(setup.py lines 624-761) that the claims are about. -/
inductive MainStep where
  | debugConfig
  | cleanCall (mode : String) (extra : List String)
  | exitZero
  | doxygenCall
  | callSwig
  | copyRuntimeStep
  | buildExtension
  | setupCall
  | pythonDocCall
deriving DecidableEq, Repr

/-- The step sequence of the `__main__` block (setup.py lines 677-761)
for a non-help invocation: debug configuration (lines 677-680), the
short-circuiting `clean` branch (lines 682-686), the doxygen rebuild
(lines 689-691), the pre-build clean and SWIG call (lines 700-707), the
`--swig-only` early exit (lines 710-712), runtime staging (line 717),
extension construction and `setup` (lines 725-757), and the python-doc
step (lines 759-761). -/
def mainSteps (ppDebug cleanRequested skipSwig swigOnly rebuildDoxygen
    genPythonDoc : Bool) : List MainStep :=
  (if ppDebug then [MainStep.debugConfig] else []) ++
  (if cleanRequested then
     [MainStep.cleanCall "std" cleanExtraDirs, MainStep.exitZero]
   else
     (if rebuildDoxygen then [MainStep.doxygenCall] else []) ++
     [MainStep.cleanCall (if skipSwig then "skip" else "keep") [],
      MainStep.callSwig] ++
     (if swigOnly then [MainStep.exitZero]
      else [MainStep.copyRuntimeStep, MainStep.buildExtension,
            MainStep.setupCall] ++
           (if genPythonDoc then [MainStep.pythonDocCall] else [])))

/-! ### `BuildSupport.get_package_data_files` (setup.py lines 287-303)

Tree filesystem model for the package directory contents. -/

/-- A directory entry: a plain file, or a directory with named children
in `os.listdir` order. -/
inductive FsEntry where
  | file : FsEntry
  | dir : List (String × FsEntry) → FsEntry

/-- The names of the plain files among `cs`, prefixed with `pre`
(the `fnames` of one `os.walk` step, as paths relative to the package
directory). -/
def dirFileNames (pre : String) (cs : List (String × FsEntry)) : List String :=
  cs.filterMap (fun x =>
    match x.2 with
    | FsEntry.file => some (pre ++ x.1)
    | FsEntry.dir _ => none)

mutual

/-- `os.walk(jentry)` (setup.py lines 296-301) collecting every file's
path relative to the package directory: the files of the visited
directory first, then each subdirectory depth-first in listing order. -/
def walkEntry (pre : String) : FsEntry → List String
  | FsEntry.file => []
  | FsEntry.dir cs => dirFileNames pre cs ++ walkSub pre cs

/-- Walk of the subdirectories among the children `cs`. -/
def walkSub (pre : String) : List (String × FsEntry) → List String
  | [] => []
  | (_, FsEntry.file) :: rest => walkSub pre rest
  | (n, FsEntry.dir cs) :: rest =>
    walkEntry (pre ++ n ++ "/") (FsEntry.dir cs) ++ walkSub pre rest

end

/-- The fixed extension-glob patterns (setup.py line 289). -/
def dataFilePatterns : List String := ["*.dll", "*.zip", "*.so", "*.so.*"]

/-- `BuildSupport.get_package_data_files` (setup.py lines 287-303),
applied to the listing `cs` of the package directory: the fixed patterns,
plus a recursive walk of every entry of the package directory that is
itself a directory.  Entries that are plain files are not walked. -/
def get_package_data_files (cs : List (String × FsEntry)) : List String :=
  dataFilePatterns ++ walkSub "" cs

/-- Specification-side description of the walked content: `HasFile cs p`
holds when following the component path `p` from a directory listing `cs`
reaches a plain file. -/
inductive HasFile : List (String × FsEntry) → List String → Prop
  | here (cs : List (String × FsEntry)) (n : String) :
      (n, FsEntry.file) ∈ cs → HasFile cs [n]
  | deeper (cs : List (String × FsEntry)) (n : String)
      (sub : List (String × FsEntry)) (p : List String) :
      (n, FsEntry.dir sub) ∈ cs → HasFile sub p → HasFile cs (n :: p)

/-- A component path joined with `/` (the relative paths produced by
`os.path.relpath` on Linux). -/
def relJoin : List String → String
  | [] => ""
  | [n] => n
  | n :: p => n ++ "/" ++ relJoin p

/-! ### `copy_runtime` (setup.py lines 181-203 and 607-618) -/

/-- Fuelled worker for `globMatch`: each step consumes one unit of fuel
and shrinks the pattern or the candidate, so `|pattern| + |candidate| + 1`
units always suffice. -/
def globMatchF : Nat → List Char → List Char → Bool
  | 0, _, _ => false
  | _ + 1, [], cs => cs.isEmpty
  | f + 1, '*' :: ps, [] => globMatchF f ps []
  | f + 1, '*' :: ps, c :: cs =>
    globMatchF f ps (c :: cs) || globMatchF f ('*' :: ps) cs
  | _ + 1, _ :: _, [] => false
  | f + 1, p :: ps, c :: cs => p == c && globMatchF f ps cs

/-- `fnmatch`-style matching for the `*` wildcard, the only
metacharacter the runtime manifests use (`glob.glob`, setup.py line
616; matching of hidden files is not modelled, no manifest pattern
involves them). -/
def globMatch (ps cs : List Char) : Bool :=
  globMatchF (ps.length + cs.length + 1) ps cs

/-- The staged state of the package directory: destination sub-paths that
exist as directories, and (destination sub-path, file name) pairs that
have been copied. -/
structure StageFS where
  dirs : List String
  files : List (String × String)
deriving DecidableEq, Repr

/-- One `(src, dst)` manifest pair (setup.py lines 610-618): create the
destination if absent, then copy every file of the runtime directory
matching the glob pattern. -/
def copyPair (srcFiles : List String) (fs : StageFS) (pair : String × String) :
    StageFS :=
  let fs1 :=
    if fs.dirs.contains pair.2 then fs
    else { fs with dirs := pair.2 :: fs.dirs }
  { fs1 with
    files := fs1.files ++
      (srcFiles.filter (fun f => globMatch pair.1.data f.data)).map
        (fun f => (pair.2, f)) }

/-- `RuntimeDefaultDeploy` (setup.py lines 67-72), in literal order (the
Python set's iteration order is unspecified). -/
def runtimeDefaultDeploy : List String :=
  ["base", "genicam", "libpol", "libDemosaic"]

/-- `BuildSupportLinux.RuntimeFiles` (setup.py lines 511-542),
uncommented entries only. -/
def linuxRuntimeFiles : List (String × List (String × String)) :=
  [("base",
    [("libfacamera.so.*", ""),
     ("libcamera_u3v.so.*", ""),
     ("libfa_genapi_c.so.*", ""),
     ("libimage.so.*", ""),
     ("libfacamera_c.so.*", "")]),
   ("genicam",
    [("libCLAllSerial_*.so", ""),
     ("libGCBase_*.so", ""),
     ("libLog_*.so", ""),
     ("libXmlParser_*.so", ""),
     ("libCLProtocol_*.so", ""),
     ("libGenApi_*.so", ""),
     ("libMathParser_*.so", ""),
     ("libFirmwareUpdate_*.so", ""),
     ("liblog4cpp_*.so", ""),
     ("libNodeMapData_*.so", "")]),
   ("libpol",
    [("liblibpol.so.2.0.0", "")])]

/-- `BuildSupportWindows.RuntimeFiles` (setup.py lines 312-360),
uncommented entries only. -/
def windowsRuntimeFiles : List (String × List (String × String)) :=
  [("base",
    [("FAI_c.dll", ""),
     ("facamera.dll", ""),
     ("image.dll", ""),
     ("libusbK.dll", ""),
     ("opencv_world455.dll", ""),
     ("lsc_calibrate.dll", ""),
     ("libLSC.dll", "")]),
   ("genicam",
    [("dll", ""),
     ("dll", ""),
     ("CLAllSerial_MD_*.dll", ""),
     ("CLProtocol_MD_*.dll", ""),
     ("FirmwareUpdate_MD_*.dll", ""),
     ("GCBase_MD_*.dll", ""),
     ("GenApiJava_MD_*.dll", ""),
     ("GenApi_MD_*.dll", ""),
     ("GenCP_MD_*.dll", ""),
     ("GenTLJava_MD_*.dll", ""),
     ("log4cpp_MD_*.dll", ""),
     ("Log_MD_*.dll", ""),
     ("MathParser_MD_*.dll", ""),
     ("NodeMapData_MD_*.dll", ""),
     ("XmlParser_MD_*.dll", "")]),
   ("libpol",
    [("libpol.dll", "")]),
   ("libDemosaic",
    [("libDemosaic.dll", "")])]

/-- `BuildSupportLinux.copy_runtime` (setup.py lines 607-618):
`srcFiles` are the file names present in the runtime directory
`RootDevDir + "/lib"`; `self.RuntimeFiles[package]` on a missing key
raises `KeyError`, modelled as `Except.error ()`. -/
def copy_runtime (srcFiles : List String) (deploy : List String)
    (manifest : List (String × List (String × String))) (fs : StageFS) :
    Except Unit StageFS :=
  deploy.foldlM
    (fun acc pkg =>
      match List.lookup pkg manifest with
      | none => Except.error ()
      | some pairs => Except.ok (pairs.foldl (copyPair srcFiles) acc))
    fs

/-! ### `use_debug_configuration` (setup.py lines 437-440 and 583-598) -/

/-- The per-platform build profile fields the claims mention. -/
structure Profile where
  extraCompileArgs : List String
  extraLinkArgs : List String
  defineMacros : List (String × Option String)
  libraryDirs : List String
  runtimeFiles : List (String × List (String × String))
deriving DecidableEq, Repr

/-- Python `list.remove` wrapped in `try/except ValueError: pass`
(setup.py lines 584-595): drop the first occurrence if present. -/
def removeFirst (x : String) : List String → List String
  | [] => []
  | y :: ys => if y = x then ys else y :: removeFirst x ys

/-- `BuildSupportLinux.use_debug_configuration` (setup.py lines
583-598): remove `-O3` then `-g0` from the compile flags, remove `-g0`
from the link flags, append `-O0` and `-g3` to the compile flags and
`-g3` to the link flags. -/
def use_debug_configuration_linux (p : Profile) : Profile :=
  { p with
    extraCompileArgs :=
      removeFirst "-g0" (removeFirst "-O3" p.extraCompileArgs) ++ ["-O0", "-g3"],
    extraLinkArgs := removeFirst "-g0" p.extraLinkArgs ++ ["-g3"] }

/-- `BuildSupportWindows.use_debug_configuration` (setup.py lines
437-440): append `/Od` and `/Zi` to the compile flags and `/DEBUG` to
the link flags. -/
def use_debug_configuration_windows (p : Profile) : Profile :=
  { p with
    extraCompileArgs := p.extraCompileArgs ++ ["/Od", "/Zi"],
    extraLinkArgs := p.extraLinkArgs ++ ["/DEBUG"] }

/-- The class-level `BuildSupportLinux` profile (setup.py lines
489-544): the flag lists before `__init__` appends include and library
options. -/
def linuxClassProfile : Profile :=
  { extraCompileArgs :=
      ["-Wno-unknown-pragmas", "-fPIC", "-g0", "-Wall", "-O3", "-Wno-switch"],
    extraLinkArgs := ["-g0", "-Wl,--enable-new-dtags", "-Wl,-rpath,$ORIGIN"],
    defineMacros := [],
    libraryDirs := [],
    runtimeFiles := linuxRuntimeFiles }

/-- The `--pp-debug` branch of `__main__` (setup.py lines 677-680):
mutate the profile and append `_dbg` to the version, before the profile
is consumed (the extension description is built at line 725). -/
def applyDebug (isLinux : Bool) (ppDebug : Bool) (p : Profile) (v : String) :
    Profile × String :=
  if ppDebug then
    ((if isLinux then use_debug_configuration_linux p
      else use_debug_configuration_windows p), v ++ "_dbg")
  else (p, v)

/-! ## Helper lemmas -/

theorem takeWhile_dropWhile_append_ctx (p : Char → Bool) (l t : List Char)
    (ht : ∀ c cs', t = c :: cs' → p c = false) :
    (l ++ t).takeWhile p = l.takeWhile p ∧
      (l ++ t).dropWhile p = l.dropWhile p ++ t := by
  induction l with
  | nil =>
    refine ⟨?_, ?_⟩ <;> cases t with
    | nil => rfl
    | cons c cs => simp [List.takeWhile_cons, List.dropWhile_cons, ht c cs rfl]
  | cons c l ih =>
    cases hc : p c <;>
      simp [List.takeWhile_cons, List.dropWhile_cons, hc, ih.1, ih.2]

theorem mem_takeWhile_p (p : Char → Bool) (l : List Char) :
    ∀ c ∈ l.takeWhile p, p c = true := by
  induction l with
  | nil => simp
  | cons c l ih =>
    intro x hx
    rw [List.takeWhile_cons] at hx
    by_cases hc : p c = true
    · simp [hc] at hx
      rcases hx with h | h
      · subst h; exact hc
      · exact ih x h
    · simp [Bool.not_eq_true] at hc
      simp [hc] at hx

theorem head_dropWhile_false (p : Char → Bool) (l : List Char) (c : Char)
    (cs : List Char) (h : l.dropWhile p = c :: cs) : p c = false := by
  induction l with
  | nil => simp [List.dropWhile] at h
  | cons x l ih =>
    rw [List.dropWhile_cons] at h
    by_cases hx : p x = true
    · simp [hx] at h; exact ih h
    · simp [Bool.not_eq_true] at hx
      simp [hx] at h
      rw [← h.1]; exact hx

theorem takeWhile_eq_self_of_all (p : Char → Bool) (l : List Char)
    (h : ∀ c ∈ l, p c = true) :
    l.takeWhile p = l ∧ l.dropWhile p = [] := by
  induction l with
  | nil => simp
  | cons c l ih =>
    have hc := h c (List.mem_cons_self c l)
    have := ih (fun x hx => h x (List.mem_cons_of_mem c hx))
    simp [List.takeWhile_cons, List.dropWhile_cons, hc, this.1, this.2]

theorem dropWhile_eq_self_of_all_false (p : Char → Bool) (l : List Char)
    (h : ∀ c ∈ l, p c = false) : l.dropWhile p = l := by
  cases l with
  | nil => rfl
  | cons c cs => simp [List.dropWhile_cons, h c (List.mem_cons_self c cs)]

theorem pyStrip_eq_self (l : List Char)
    (h : ∀ c ∈ l, c.isWhitespace = false) : pyStrip l = l := by
  unfold pyStrip
  rw [dropWhile_eq_self_of_all_false _ _ h,
      dropWhile_eq_self_of_all_false _ _ (fun c hc => h c (List.mem_reverse.mp hc)),
      List.reverse_reverse]

theorem not_ws_of_isDigit (c : Char) (h : c.isDigit = true) :
    c.isWhitespace = false := by
  by_contra hw
  rw [Bool.not_eq_false] at hw
  simp only [Char.isWhitespace, Bool.or_eq_true, decide_eq_true_eq] at hw
  rcases hw with ((h1 | h1) | h1) | h1 <;> subst h1 <;> exact absurd h (by decide)

theorem not_ws_of_isLowerHex (c : Char) (h : isLowerHex c = true) :
    c.isWhitespace = false := by
  by_contra hw
  rw [Bool.not_eq_false] at hw
  simp only [Char.isWhitespace, Bool.or_eq_true, decide_eq_true_eq] at hw
  rcases hw with ((h1 | h1) | h1) | h1 <;> subst h1 <;> exact absurd h (by decide)

theorem string_mk_eq (l : List Char) (s : String) (h : l = s.data) :
    String.mk l = s := by
  cases s with
  | mk d => rw [show (String.mk d).data = d from rfl] at h; rw [h]

theorem lookup_isSome_iff {α β : Type} [BEq α] [LawfulBEq α] (a : α)
    (l : List (α × β)) :
    (List.lookup a l).isSome = true ↔ a ∈ l.map Prod.fst := by
  induction l with
  | nil => simp [List.lookup]
  | cons x xs ih =>
    by_cases hx : a = x.1
    · subst hx; simp [List.lookup]
    · rw [List.lookup]
      have : (a == x.1) = false := beq_false_of_ne hx
      simp [this, ih, hx]

/-! ## Claim C2: platform profile selection -/

/-- Claim C2, counterexample: the pair (Darwin, 64) is in the `BinPath`
dictionary, yet `BuildSupport.make` recognizes only Windows and Linux;
for Darwin it merely logs via `logging.error` and returns `None` — it
neither returns a profile nor raises. -/
theorem make_darwin_counterexample :
    binPath "Darwin" 64 = some "lib64" ∧ make "Darwin" = none := by
  exact ⟨by decide, by decide⟩

/-- Claim C2 (amended): the `BinPath` class-attribute lookup succeeds
exactly for the five pairs Windows/32, Windows/64, Linux/32, Linux/64
and Darwin/64 (any other pair raises `KeyError` at class-definition
time, modelled by `none`); `BuildSupport.make` returns the Windows
profile for "Windows" and the Linux profile for "Linux", and for every
other platform — including Darwin — it logs an error and returns `None`
instead of a profile, without raising. -/
theorem platform_selection_amended (plat : String) (width : Nat) :
    ((binPath plat width).isSome = true ↔
      (plat, width) ∈ binPathTable.map Prod.fst)
  ∧ (plat = "Windows" → make plat = some PlatformProfile.windows)
  ∧ (plat = "Linux" → make plat = some PlatformProfile.linux)
  ∧ (plat ≠ "Windows" → plat ≠ "Linux" → make plat = none) := by
  refine ⟨lookup_isSome_iff _ _, ?_, ?_, ?_⟩
  · intro h; subst h; rfl
  · intro h; subst h; rfl
  · intro h1 h2; simp [make, h1, h2]

/-- Claim C2, witness for the amended theorem. -/
theorem platform_selection_amended_witness :
    make "Linux" = some PlatformProfile.linux
  ∧ make "FreeBSD" = none
  ∧ (binPath "Windows" 64).isSome = true := by
  refine ⟨(platform_selection_amended "Linux" 64).2.2.1 rfl,
          (platform_selection_amended "FreeBSD" 64).2.2.2
            (by decide) (by decide),
          ((platform_selection_amended "Windows" 64).1).mpr (by decide)⟩

/-! ## Claim C9: `is_supported_swig_version` on a `None` executable -/

/-- Claim C9: `is_supported_swig_version` called with `None` (the result
of an unsuccessful `shutil.which` lookup) returns `False` immediately —
it does not raise, and the result holds for every probe environment, so
no subprocess outcome is ever consulted. -/
theorem is_supported_swig_version_none (env : SwigEnv) :
    is_supported_swig_version env none = Except.ok false := rfl

/-! ## Claim C10: `clean` in `skip` mode -/

/-- Claim C10: `clean` called with mode `'skip'` returns immediately and
leaves the filesystem exactly as it was, whatever additional directories
are passed. -/
theorem clean_skip_noop (fs : List String) (additionalDirs : List String) :
    clean fs "skip" additionalDirs = fs := rfl

/-! ## Claim C8: the debug-build mutation -/

/-- Claim C8: with the debug flag, the Linux profile's compile flags lose
`-O3` and `-g0` and gain `-O0` and `-g3`, its link flags lose `-g0` and
gain `-g3`; the Windows profile gains `/Od`, `/Zi` on the compile flags
and `/DEBUG` on the link flags; macros, library directories and the
runtime manifest are untouched on both platforms; the version string
gets the `_dbg` suffix; and in the main flow the debug mutation is the
first step, before the extension description consumes the flags. -/
theorem use_debug_configuration_spec (p : Profile) (v : String)
    (il : Bool) :
    (use_debug_configuration_linux linuxClassProfile).extraCompileArgs =
      ["-Wno-unknown-pragmas", "-fPIC", "-Wall", "-Wno-switch", "-O0", "-g3"]
  ∧ (use_debug_configuration_linux linuxClassProfile).extraLinkArgs =
      ["-Wl,--enable-new-dtags", "-Wl,-rpath,$ORIGIN", "-g3"]
  ∧ (use_debug_configuration_windows p).extraCompileArgs =
      p.extraCompileArgs ++ ["/Od", "/Zi"]
  ∧ (use_debug_configuration_windows p).extraLinkArgs =
      p.extraLinkArgs ++ ["/DEBUG"]
  ∧ (use_debug_configuration_linux p).defineMacros = p.defineMacros
  ∧ (use_debug_configuration_linux p).libraryDirs = p.libraryDirs
  ∧ (use_debug_configuration_linux p).runtimeFiles = p.runtimeFiles
  ∧ (use_debug_configuration_windows p).defineMacros = p.defineMacros
  ∧ (use_debug_configuration_windows p).libraryDirs = p.libraryDirs
  ∧ (use_debug_configuration_windows p).runtimeFiles = p.runtimeFiles
  ∧ (applyDebug il true p v).2 = v ++ "_dbg"
  ∧ (applyDebug il true p v).1 =
      (if il then use_debug_configuration_linux p
       else use_debug_configuration_windows p)
  ∧ mainSteps true false false false false false =
      [MainStep.debugConfig, MainStep.cleanCall "keep" [], MainStep.callSwig,
       MainStep.copyRuntimeStep, MainStep.buildExtension, MainStep.setupCall] := by
  refine ⟨by decide, by decide, rfl, rfl, rfl, rfl, rfl, rfl, rfl, rfl,
          rfl, rfl, rfl⟩

/-! ## Claim C3: the SWIG locator -/

/-- Claim C3: a candidate whose reported version is "SWIG Version 4.0.0"
is accepted and one reporting "SWIG Version 2.9.9" is rejected (minimum
3.0.12); a candidate that `shutil.which` cannot resolve, or whose
invocation fails, is skipped and the search continues with the next
candidate; the first accepted candidate of `["swig4.0", "swig"]` is
returned; and if no candidate is accepted, `find_swig` raises
`RuntimeError`. -/
theorem find_swig_spec (env : SwigEnv) :
    (∀ p, env.versionOutput p = Except.ok "SWIG Version 4.0.0" →
      is_supported_swig_version env (some p) = Except.ok true)
  ∧ (∀ p, env.versionOutput p = Except.ok "SWIG Version 2.9.9" →
      is_supported_swig_version env (some p) = Except.ok false)
  ∧ (∀ c rest, env.which c = none →
      findFrom env (c :: rest) = findFrom env rest)
  ∧ (∀ c rest p, env.which c = some p →
      env.versionOutput p = Except.error () →
      findFrom env (c :: rest) = findFrom env rest)
  ∧ (∀ p, env.which "swig4.0" = some p →
      is_supported_swig_version env (some p) = Except.ok true →
      find_swig env = Except.ok p)
  ∧ (is_supported_swig_version env (env.which "swig4.0") = Except.ok false →
      is_supported_swig_version env (env.which "swig") = Except.ok false →
      find_swig env = Except.error FindSwigError.runtimeErr) := by
  refine ⟨?_, ?_, ?_, ?_, ?_, ?_⟩
  · intro p h
    simp only [is_supported_swig_version, h]
    rfl
  · intro p h
    simp only [is_supported_swig_version, h]
    rfl
  · intro c rest h
    simp only [findFrom, h]
    rfl
  · intro c rest p h hv
    simp only [findFrom, h, is_supported_swig_version, hv]
  · intro p h hs
    simp only [find_swig, swigCandidates, findFrom, h, hs, Option.getD_some]
  · intro h1 h2
    simp only [find_swig, swigCandidates, findFrom, h1, h2]

/-- Claim C3, witness: in an environment where `shutil.which` resolves
no candidate, `find_swig` raises `RuntimeError`; in an environment where
`swig4.0` resolves and reports version 4.0.0 it is returned; a candidate
reporting 2.9.9 is rejected. -/
theorem find_swig_spec_witness :
    find_swig ⟨fun _ => none, fun _ => Except.error ()⟩ =
      Except.error FindSwigError.runtimeErr
  ∧ find_swig ⟨fun c => if c = "swig4.0" then some "/usr/bin/swig4.0" else none,
      fun _ => Except.ok "SWIG Version 4.0.0"⟩ = Except.ok "/usr/bin/swig4.0"
  ∧ is_supported_swig_version
      ⟨fun _ => some "/usr/bin/swig", fun _ => Except.ok "SWIG Version 2.9.9"⟩
      (some "/usr/bin/swig") = Except.ok false := by
  refine ⟨(find_swig_spec ⟨fun _ => none, fun _ => Except.error ()⟩).2.2.2.2.2
            rfl rfl,
          (find_swig_spec _).2.2.2.2.1 "/usr/bin/swig4.0" rfl
            ((find_swig_spec _).1 "/usr/bin/swig4.0" rfl),
          (find_swig_spec _).2.1 "/usr/bin/swig" rfl⟩

/-! ## Claim C4: the date-based fallback version -/

/-- Claim C4: whenever the git query fails, or its output matches
neither the exact-release pattern nor the development-descriptor
pattern, `get_git_version` returns exactly
year.month.day.dev(seconds-since-midnight); the result is a pure
function of the clock reading. -/
theorem get_git_version_fallback (git : Option String) (n : Now)
    (h : ∀ s, git = some s → matchRel (pyStrip s.data) = false ∧
      parseDevM (pyStrip s.data) = none) :
    get_git_version git n =
      toString n.year ++ "." ++ toString n.month ++ "." ++ toString n.day ++
        ".dev" ++ toString (3600 * n.hour + 60 * n.minute + n.second) := by
  cases git with
  | none => rfl
  | some s =>
    obtain ⟨h1, h2⟩ := h s rfl
    simp only [get_git_version, h1, h2]
    rfl

/-- Claim C4, witness: an unparseable descriptor and a failed git query
both produce the date-based fallback at a concrete clock reading. -/
theorem get_git_version_fallback_witness :
    get_git_version (some "nonsense") ⟨2024, 5, 7, 1, 2, 3⟩ =
      toString 2024 ++ "." ++ toString 5 ++ "." ++ toString 7 ++ ".dev" ++
        toString (3600 * 1 + 60 * 2 + 3)
  ∧ get_git_version none ⟨2024, 5, 7, 1, 2, 3⟩ =
      toString 2024 ++ "." ++ toString 5 ++ "." ++ toString 7 ++ ".dev" ++
        toString (3600 * 1 + 60 * 2 + 3) := by
  refine ⟨get_git_version_fallback (some "nonsense") ⟨2024, 5, 7, 1, 2, 3⟩
            (fun s hs => ?_),
          get_git_version_fallback none ⟨2024, 5, 7, 1, 2, 3⟩
            (fun s hs => by cases hs)⟩
  injection hs with hs'
  subst hs'
  exact ⟨by decide, by decide⟩

/-! ## Claim C5: the `clean` pseudo-command -/

theorem mem_foldl_rmtree (dirs : List String) (fs : List String) (p : String) :
    p ∈ dirs.foldl rmtree fs ↔ p ∈ fs ∧ ∀ d ∈ dirs, isUnder d p = false := by
  induction dirs generalizing fs with
  | nil => simp
  | cons d ds ih =>
    rw [List.foldl_cons, ih]
    simp [rmtree, List.mem_filter, Bool.not_eq_true', and_assoc]

/-- Claim C5: when the `clean` pseudo-command is requested, the main
flow performs no SWIG call, no runtime staging and no `setup` call, it
runs `clean("std", ["build", "FAI_python.egg-info", "dist"])` and its
last step is `sys.exit(0)`; after that clean, nothing remains under the
generated directory, the package directory, `build`, the egg-info
directory or `dist`; and a `keep`-mode clean removes the generated and
package directories and recreates exactly the two empty directories. -/
theorem clean_command_spec (fs : List String)
    (ppDebug skipSwig swigOnly rd gd : Bool) :
    MainStep.callSwig ∉ mainSteps ppDebug true skipSwig swigOnly rd gd
  ∧ MainStep.copyRuntimeStep ∉ mainSteps ppDebug true skipSwig swigOnly rd gd
  ∧ MainStep.setupCall ∉ mainSteps ppDebug true skipSwig swigOnly rd gd
  ∧ MainStep.cleanCall "std" cleanExtraDirs ∈
      mainSteps ppDebug true skipSwig swigOnly rd gd
  ∧ (mainSteps ppDebug true skipSwig swigOnly rd gd).getLast? =
      some MainStep.exitZero
  ∧ (∀ d ∈ [GeneratedDir, PackageDir] ++ cleanExtraDirs, ∀ p,
      isUnder d p = true → p ∉ clean fs "std" cleanExtraDirs)
  ∧ (GeneratedDir ∈ clean fs "keep" [] ∧ PackageDir ∈ clean fs "keep" []
     ∧ (∀ p, isUnder GeneratedDir p = true → p ≠ GeneratedDir →
         p ∉ clean fs "keep" [])
     ∧ (∀ p, isUnder PackageDir p = true → p ≠ PackageDir →
         p ∉ clean fs "keep" [])) := by
  have hkeep : clean fs "keep" [] =
      PackageDir :: GeneratedDir ::
        ([GeneratedDir, PackageDir] ++ ([] : List String)).foldl rmtree fs := rfl
  have hsteps : mainSteps ppDebug true skipSwig swigOnly rd gd =
      (if ppDebug then [MainStep.debugConfig] else []) ++
        [MainStep.cleanCall "std" cleanExtraDirs, MainStep.exitZero] := rfl
  refine ⟨?_, ?_, ?_, ?_, ?_, ?_, ?_, ?_, ?_, ?_⟩
  · rw [hsteps]; cases ppDebug <;> decide
  · rw [hsteps]; cases ppDebug <;> decide
  · rw [hsteps]; cases ppDebug <;> decide
  · rw [hsteps]; cases ppDebug <;> decide
  · rw [hsteps]; cases ppDebug <;> decide
  · intro d hd p hp hmem
    have hstd : clean fs "std" cleanExtraDirs =
        ([GeneratedDir, PackageDir] ++ cleanExtraDirs).foldl rmtree fs := rfl
    rw [hstd, mem_foldl_rmtree] at hmem
    have := hmem.2 d hd
    rw [hp] at this
    exact Bool.noConfusion this
  · rw [hkeep]
    exact List.mem_cons_of_mem _ (List.mem_cons_self _ _)
  · rw [hkeep]
    exact List.mem_cons_self _ _
  · intro p hp hne hmem
    rw [hkeep] at hmem
    rcases List.mem_cons.mp hmem with h1 | hmem
    · subst h1
      exact absurd hp (by decide)
    rcases List.mem_cons.mp hmem with h1 | hmem
    · exact hne h1
    · rw [mem_foldl_rmtree] at hmem
      have := hmem.2 GeneratedDir (by simp)
      rw [hp] at this
      exact Bool.noConfusion this
  · intro p hp hne hmem
    rw [hkeep] at hmem
    rcases List.mem_cons.mp hmem with h1 | hmem
    · exact hne h1
    rcases List.mem_cons.mp hmem with h1 | hmem
    · subst h1
      exact absurd hp (by decide)
    · rw [mem_foldl_rmtree] at hmem
      have := hmem.2 PackageDir (by simp)
      rw [hp] at this
      exact Bool.noConfusion this

/-- Claim C5, witness: a file below the generated directory is gone
after a `std` clean, and a `keep` clean leaves the generated directory
present. -/
theorem clean_command_spec_witness :
    ("./generated/wrap.c" : String) ∉
      clean ["./generated/wrap.c", "other"] "std" cleanExtraDirs
  ∧ GeneratedDir ∈ clean ["x"] "keep" [] := by
  refine ⟨(clean_command_spec ["./generated/wrap.c", "other"]
      true false false false false).2.2.2.2.2.1
      GeneratedDir (by decide) "./generated/wrap.c" (by decide),
    (clean_command_spec ["x"] true false false false false).2.2.2.2.2.2.1⟩

/-! ## Claim C1: git-describe version parsing -/

/-- Claim C1, counterexample: the claim's example descriptor
"1.2.3-14-gABCDEF" is NOT transformed to "1.2.3.dev14": the
commit-hash part of `rx_git_ver` is `-g[0-9a-f]+`, lowercase only, so
the uppercase hash does not match and the date-based fallback is
returned instead. -/
theorem git_version_uppercase_hex_counterexample :
    get_git_version (some "1.2.3-14-gABCDEF") ⟨2024, 5, 7, 1, 2, 3⟩ =
      "2024.5.7.dev3723"
  ∧ ("2024.5.7.dev3723" : String) ≠ "1.2.3.dev14" := by
  exact ⟨by decide, by decide⟩

theorem tdw_append_dash (p : Char → Bool) (l t' : List Char)
    (hp : p '-' = false) :
    (l ++ '-' :: t').takeWhile p = l.takeWhile p ∧
      (l ++ '-' :: t').dropWhile p = l.dropWhile p ++ '-' :: t' :=
  takeWhile_dropWhile_append_ctx p l ('-' :: t')
    (fun c _ h => by injection h with h1 _; subst h1; exact hp)

theorem parseDotNum_split (cs x r : List Char)
    (h : parseDotNum cs = some (x, r)) : cs = x ++ r := by
  cases cs with
  | nil => simp [parseDotNum] at h
  | cons c rest =>
    simp only [parseDotNum] at h
    split_ifs at h with hc he
    rw [Option.some.injEq, Prod.mk.injEq] at h
    obtain ⟨hx, hr⟩ := h
    subst hc
    rw [← hx, ← hr, List.cons_append,
        List.takeWhile_append_dropWhile]

theorem parsePre_split (cs x r : List Char) (h : parsePre cs = (x, r)) :
    cs = x ++ r := by
  cases cs with
  | nil =>
    simp only [parsePre] at h
    injection h with h1 h2
    rw [← h1, ← h2]
    rfl
  | cons c rest =>
    cases rest with
    | nil =>
      simp only [parsePre] at h
      split_ifs at h with hab hr <;>
        (injection h with h1 h2; rw [← h1, ← h2]) <;> rfl
    | cons c2 rest2 =>
      simp only [parsePre] at h
      by_cases hab : c = 'a' ∨ c = 'b'
      · rw [if_pos hab] at h
        injection h with h1 h2
        rw [← h1, ← h2, List.cons_append, List.takeWhile_append_dropWhile]
      · rw [if_neg hab] at h
        by_cases hr : c = 'r'
        · rw [if_pos hr] at h
          by_cases hc2 : c2 = 'c'
          · rw [if_pos hc2] at h
            injection h with h1 h2
            subst hr hc2
            rw [← h1, ← h2]
            simp [List.takeWhile_append_dropWhile]
          · rw [if_neg hc2] at h
            injection h with h1 h2
            rw [← h1, ← h2]
            rfl
        · rw [if_neg hr] at h
          injection h with h1 h2
          rw [← h1, ← h2]
          rfl

theorem tryDotNum_split (cs : List Char) :
    cs = (tryDotNum cs).1 ++ (tryDotNum cs).2 := by
  unfold tryDotNum
  cases hp : parseDotNum cs with
  | none => rfl
  | some y => exact parseDotNum_split cs y.1 y.2 (by rw [hp])

theorem parseRelCore_split (cs g r : List Char)
    (h : parseRelCore cs = some (g, r)) : cs = g ++ r := by
  unfold parseRelCore at h
  by_cases h0 : cs.takeWhile Char.isDigit = []
  · rw [if_pos h0] at h; exact absurd h (by simp)
  rw [if_neg h0] at h
  cases h2 : parseDotNum (cs.dropWhile Char.isDigit) with
  | none => simp only [h2] at h; exact Option.noConfusion h
  | some y2 =>
    obtain ⟨c2, r2⟩ := y2
    simp only [h2] at h
    cases h3 : parseDotNum r2 with
    | none => simp only [h3] at h; exact Option.noConfusion h
    | some y3 =>
      obtain ⟨c3, r3⟩ := y3
      simp only [h3, Option.some.injEq, Prod.mk.injEq] at h
      obtain ⟨hg, hr⟩ := h
      have e1 : cs = cs.takeWhile Char.isDigit ++ cs.dropWhile Char.isDigit :=
        (List.takeWhile_append_dropWhile Char.isDigit cs).symm
      have e2 := parseDotNum_split _ _ _ h2
      have e3 := parseDotNum_split _ _ _ h3
      have e4 := tryDotNum_split r3
      have e5 := parsePre_split (tryDotNum r3).2
        (parsePre (tryDotNum r3).2).1 (parsePre (tryDotNum r3).2).2 rfl
      rw [← hg, ← hr]
      conv_lhs => rw [e1, e2, e3, e4, e5]
      simp [List.append_assoc]

theorem matchRel_parseRelCore (cs : List Char) (h : matchRel cs = true) :
    parseRelCore cs = some (cs, []) := by
  unfold matchRel at h
  cases hp : parseRelCore cs with
  | none => rw [hp] at h; exact Bool.noConfusion h
  | some y =>
    obtain ⟨g, r⟩ := y
    rw [hp] at h
    simp only [List.isEmpty_iff] at h
    subst h
    have := parseRelCore_split cs g [] hp
    rw [List.append_nil] at this
    rw [this]

theorem parseDotNum_append_dash (cs x r t' : List Char)
    (h : parseDotNum cs = some (x, r)) :
    parseDotNum (cs ++ '-' :: t') = some (x, r ++ '-' :: t') := by
  cases cs with
  | nil => simp [parseDotNum] at h
  | cons c rest =>
    rw [List.cons_append]
    simp only [parseDotNum] at h ⊢
    rw [(tdw_append_dash Char.isDigit rest t' (by decide)).1,
        (tdw_append_dash Char.isDigit rest t' (by decide)).2]
    split_ifs at h with hc he
    rw [if_pos hc, if_neg he]
    rw [Option.some.injEq, Prod.mk.injEq] at h ⊢
    exact ⟨h.1, by rw [← h.2]⟩

theorem parseDotNum_none_append_dash (cs t' : List Char)
    (h : parseDotNum cs = none) :
    parseDotNum (cs ++ '-' :: t') = none := by
  cases cs with
  | nil =>
    rw [List.nil_append]
    simp [parseDotNum]
  | cons c rest =>
    rw [List.cons_append]
    simp only [parseDotNum] at h ⊢
    rw [(tdw_append_dash Char.isDigit rest t' (by decide)).1]
    by_cases hc : c = '.'
    · rw [if_pos hc] at h ⊢
      by_cases he : rest.takeWhile Char.isDigit = []
      · rw [if_pos he]
      · rw [if_neg he] at h
        exact absurd h (by simp)
    · rw [if_neg hc]

theorem tryDotNum_append_dash (cs t' : List Char) :
    tryDotNum (cs ++ '-' :: t') =
      ((tryDotNum cs).1, (tryDotNum cs).2 ++ '-' :: t') := by
  unfold tryDotNum
  cases hp : parseDotNum cs with
  | none => simp only [parseDotNum_none_append_dash cs t' hp]
  | some y =>
    obtain ⟨x, r⟩ := y
    simp only [parseDotNum_append_dash cs x r t' hp]

theorem parsePre_dash (l : List Char) : parsePre ('-' :: l) = ([], '-' :: l) := by
  cases l with
  | nil => rfl
  | cons z zs =>
    simp only [parsePre]
    rw [if_neg (by decide), if_neg (by decide)]

theorem parsePre_append_dash (cs x t' : List Char)
    (h : parsePre cs = (x, [])) :
    parsePre (cs ++ '-' :: t') = (x, '-' :: t') := by
  cases cs with
  | nil =>
    simp only [parsePre] at h
    injection h with h1 _
    rw [List.nil_append, ← h1]
    exact parsePre_dash t'
  | cons c rest =>
    cases rest with
    | nil =>
      rw [List.cons_append, List.nil_append]
      simp only [parsePre] at h ⊢
      by_cases hab : c = 'a' ∨ c = 'b'
      · rw [if_pos hab] at h ⊢
        injection h with h1 _
        rw [← h1]
        rfl
      · rw [if_neg hab] at h
        by_cases hr : c = 'r'
        · rw [if_pos hr] at h
          injection h with _ h2
          exact absurd h2 (by simp)
        · rw [if_neg hr] at h
          injection h with _ h2
          exact absurd h2 (by simp)
    | cons c2 rest2 =>
      rw [List.cons_append, List.cons_append]
      simp only [parsePre] at h ⊢
      by_cases hab : c = 'a' ∨ c = 'b'
      · rw [if_pos hab] at h ⊢
        injection h with h1 h2
        have hx1 := tdw_append_dash Char.isDigit (c2 :: rest2) t' (by decide)
        rw [List.cons_append] at hx1
        rw [hx1.1, hx1.2, h2, List.nil_append, h1]
      · rw [if_neg hab] at h ⊢
        by_cases hr : c = 'r'
        · rw [if_pos hr] at h ⊢
          by_cases hc2 : c2 = 'c'
          · rw [if_pos hc2] at h ⊢
            injection h with h1 h2
            rw [(tdw_append_dash Char.isDigit rest2 t' (by decide)).1,
                (tdw_append_dash Char.isDigit rest2 t' (by decide)).2,
                h2, List.nil_append, h1]
          · rw [if_neg hc2] at h
            injection h with _ h2
            exact absurd h2 (by simp)
        · rw [if_neg hr] at h
          injection h with _ h2
          exact absurd h2 (by simp)

theorem parseRelCore_append_dash (cs t' : List Char)
    (h : parseRelCore cs = some (cs, [])) :
    parseRelCore (cs ++ '-' :: t') = some (cs, '-' :: t') := by
  unfold parseRelCore at h
  by_cases h0 : cs.takeWhile Char.isDigit = []
  · rw [if_pos h0] at h; exact absurd h (by simp)
  rw [if_neg h0] at h
  cases h2 : parseDotNum (cs.dropWhile Char.isDigit) with
  | none => simp only [h2] at h; exact Option.noConfusion h
  | some y2 =>
    obtain ⟨c2, r2⟩ := y2
    simp only [h2] at h
    cases h3 : parseDotNum r2 with
    | none => simp only [h3] at h; exact Option.noConfusion h
    | some y3 =>
      obtain ⟨c3, r3⟩ := y3
      simp only [h3, Option.some.injEq, Prod.mk.injEq] at h
      obtain ⟨hg, hr⟩ := h
      have hp0 : parsePre (tryDotNum r3).2 =
          ((parsePre (tryDotNum r3).2).1, []) := by
        rw [← hr]
      unfold parseRelCore
      rw [(tdw_append_dash Char.isDigit cs t' (by decide)).1,
          (tdw_append_dash Char.isDigit cs t' (by decide)).2,
          if_neg h0]
      simp only [parseDotNum_append_dash _ c2 r2 t' h2,
                 parseDotNum_append_dash _ c3 r3 t' h3,
                 tryDotNum_append_dash r3 t',
                 parsePre_append_dash _ _ t' hp0,
                 Option.some.injEq, Prod.mk.injEq]
      exact ⟨hg, trivial⟩

theorem matchRel_append_dash_false (cs t' : List Char)
    (h : parseRelCore cs = some (cs, [])) :
    matchRel (cs ++ '-' :: t') = false := by
  unfold matchRel
  simp only [parseRelCore_append_dash cs t' h, List.isEmpty_cons]

theorem skipPlus_dash (l : List Char) : skipPlus ('-' :: l) = '-' :: l := by
  cases l with
  | nil => rfl
  | cons z zs =>
    simp only [skipPlus]
    rw [if_neg]
    intro hcon
    exact absurd hcon.1 (by decide)

theorem parseDist_digits (dist hex : List Char)
    (hd0 : dist ≠ []) (hd : ∀ c ∈ dist, c.isDigit = true)
    (hx0 : hex ≠ []) (hx : ∀ c ∈ hex, isLowerHex c = true) :
    parseDist ('-' :: (dist ++ '-' :: 'g' :: hex)) = (some dist, []) := by
  have ht := takeWhile_eq_self_of_all Char.isDigit dist hd
  have hh := takeWhile_eq_self_of_all isLowerHex hex hx
  have h1 := tdw_append_dash Char.isDigit dist ('g' :: hex) (by decide)
  simp only [parseDist, h1.1, h1.2, ht.1, ht.2, List.nil_append, hh.1, hh.2]
  simp [hd0, hx0]

theorem parseDevM_dist (base dist hex : List Char)
    (hb : parseRelCore base = some (base, []))
    (hd0 : dist ≠ []) (hd : ∀ c ∈ dist, c.isDigit = true)
    (hx0 : hex ≠ []) (hx : ∀ c ∈ hex, isLowerHex c = true) :
    parseDevM (base ++ '-' :: (dist ++ '-' :: 'g' :: hex)) =
      some (base, some dist) := by
  simp only [parseDevM, parseRelCore_append_dash base _ hb, skipPlus_dash,
             parseDist_digits dist hex hd0 hd hx0 hx]
  rfl

theorem parseDevM_dirty (base : List Char)
    (hb : parseRelCore base = some (base, [])) :
    parseDevM (base ++ '-' :: ['d', 'i', 'r', 't', 'y']) =
      some (base, none) := by
  simp only [parseDevM, parseRelCore_append_dash base _ hb, skipPlus_dash]
  rfl

/-- Claim C1 (amended): for every git describe output (modulo the
surrounding `strip`): a descriptor matching the exact-release-tag
pattern is returned unchanged; a descriptor `base-<d>-g<hash>` whose
hash consists of LOWERCASE hexadecimal digits (the pattern is
`-g[0-9a-f]+`, so e.g. `1.2.3-14-gabcdef` qualifies while
`1.2.3-14-gABCDEF` does not) is transformed to `base.dev<d>`; and a
descriptor `base-dirty` with no commit-distance segment is transformed
to `base.dev0`. -/
theorem get_git_version_amended (base dist hex : String) (n : Now)
    (hb : matchRel base.data = true)
    (hbw : ∀ c ∈ base.data, c.isWhitespace = false)
    (hd0 : dist.data ≠ []) (hd : ∀ c ∈ dist.data, c.isDigit = true)
    (hx0 : hex.data ≠ []) (hx : ∀ c ∈ hex.data, isLowerHex c = true) :
    get_git_version (some base) n = base
  ∧ get_git_version (some (base ++ "-" ++ dist ++ "-g" ++ hex)) n =
      base ++ ".dev" ++ dist
  ∧ get_git_version (some (base ++ "-dirty")) n = base ++ ".dev0" := by
  have hrel : parseRelCore base.data = some (base.data, []) :=
    matchRel_parseRelCore base.data hb
  refine ⟨?_, ?_, ?_⟩
  · simp only [get_git_version]
    rw [pyStrip_eq_self base.data hbw, hb]
    exact if_pos rfl |>.trans (string_mk_eq _ _ rfl)
  · have hS : (base ++ "-" ++ dist ++ "-g" ++ hex).data =
        base.data ++ '-' :: (dist.data ++ '-' :: 'g' :: hex.data) := by
      simp [String.data_append]
    have hws : ∀ c ∈ (base ++ "-" ++ dist ++ "-g" ++ hex).data,
        c.isWhitespace = false := by
      rw [hS]
      intro c hc
      simp only [List.mem_append, List.mem_cons] at hc
      rcases hc with hc | hc | hc | hc | hc | hc
      · exact hbw c hc
      · subst hc; decide
      · exact not_ws_of_isDigit c (hd c hc)
      · subst hc; decide
      · subst hc; decide
      · exact not_ws_of_isLowerHex c (hx c hc)
    simp only [get_git_version]
    rw [pyStrip_eq_self _ hws, hS,
        matchRel_append_dash_false base.data _ hrel,
        parseDevM_dist base.data dist.data hex.data hrel hd0 hd hx0 hx]
    simp only [Bool.false_eq_true, if_false, Option.getD_some]
    exact string_mk_eq _ _ (by simp [String.data_append])
  · have hS : (base ++ "-dirty").data =
        base.data ++ '-' :: ['d', 'i', 'r', 't', 'y'] := by
      simp [String.data_append]
    have hws : ∀ c ∈ (base ++ "-dirty").data, c.isWhitespace = false := by
      rw [hS]
      intro c hc
      simp only [List.mem_append, List.mem_cons, List.not_mem_nil,
                 or_false] at hc
      rcases hc with hc | hc | hc | hc | hc | hc | hc
      · exact hbw c hc
      all_goals (subst hc; decide)
    simp only [get_git_version]
    rw [pyStrip_eq_self _ hws, hS,
        matchRel_append_dash_false base.data _ hrel,
        parseDevM_dirty base.data hrel]
    simp only [Bool.false_eq_true, if_false, Option.getD_none]
    exact string_mk_eq _ _ (by simp [String.data_append])

/-- Claim C1, witness for the amended theorem at the specification's
example inputs (with a lowercase hash). -/
theorem get_git_version_amended_witness :
    get_git_version (some "1.2.3") ⟨2024, 5, 7, 1, 2, 3⟩ = "1.2.3"
  ∧ get_git_version (some ("1.2.3" ++ "-" ++ "14" ++ "-g" ++ "abcdef"))
      ⟨2024, 5, 7, 1, 2, 3⟩ = "1.2.3" ++ ".dev" ++ "14"
  ∧ get_git_version (some ("1.2.3" ++ "-dirty")) ⟨2024, 5, 7, 1, 2, 3⟩ =
      "1.2.3" ++ ".dev0" :=
  get_git_version_amended "1.2.3" "14" "abcdef" ⟨2024, 5, 7, 1, 2, 3⟩
    (by decide) (by decide) (by decide) (by decide) (by decide) (by decide)

/-! ## Claim C6: `get_package_data_files` -/

theorem str_nil_append (s : String) : "" ++ s = s := by cases s; rfl

theorem hasFile_ne_nil (cs : List (String × FsEntry)) (p : List String)
    (h : HasFile cs p) : p ≠ [] := by cases h <;> simp

theorem mem_walkSub_of_mem_dir (cs : List (String × FsEntry)) (pre n : String)
    (sub : List (String × FsEntry)) (x : String)
    (hmem : (n, FsEntry.dir sub) ∈ cs)
    (hx : x ∈ walkEntry (pre ++ n ++ "/") (FsEntry.dir sub)) :
    x ∈ walkSub pre cs := by
  induction cs with
  | nil => cases hmem
  | cons hd tl ih =>
    rcases List.mem_cons.mp hmem with h1 | h1
    · subst h1
      simp only [walkSub]
      exact List.mem_append_left _ hx
    · obtain ⟨hn, he⟩ := hd
      cases he with
      | file =>
        simp only [walkSub]
        exact ih h1
      | dir sub2 =>
        simp only [walkSub]
        exact List.mem_append_right _ (ih h1)

theorem hasFile_mem_walkEntry (cs : List (String × FsEntry)) (p : List String)
    (h : HasFile cs p) :
    ∀ pre, (pre ++ relJoin p) ∈ walkEntry pre (FsEntry.dir cs) := by
  induction h with
  | here cs n hmem =>
    intro pre
    simp only [walkEntry]
    apply List.mem_append_left
    simp only [relJoin]
    unfold dirFileNames
    rw [List.mem_filterMap]
    exact ⟨(n, FsEntry.file), hmem, rfl⟩
  | deeper cs n sub p hmem hsub ih =>
    intro pre
    simp only [walkEntry]
    apply List.mem_append_right
    have hp := hasFile_ne_nil sub p hsub
    have hjoin : pre ++ relJoin (n :: p) = (pre ++ n ++ "/") ++ relJoin p := by
      cases p with
      | nil => exact absurd rfl hp
      | cons q qs =>
        simp only [relJoin]
        rw [← String.append_assoc pre (n ++ "/") (relJoin (q :: qs)),
            ← String.append_assoc pre n "/"]
    rw [hjoin]
    exact mem_walkSub_of_mem_dir cs pre n sub _ hmem (ih (pre ++ n ++ "/"))

theorem hasFile_cases (cs : List (String × FsEntry)) (path : List String)
    (h : HasFile cs path) :
    (∃ n, path = [n] ∧ (n, FsEntry.file) ∈ cs) ∨
    (∃ n sub p, path = n :: p ∧ (n, FsEntry.dir sub) ∈ cs ∧ HasFile sub p) := by
  match h with
  | HasFile.here _ n hmem => exact Or.inl ⟨n, rfl, hmem⟩
  | HasFile.deeper _ n sub p hmem hsub =>
    exact Or.inr ⟨n, sub, p, rfl, hmem, hsub⟩

/-- Claim C6, counterexample: a file placed directly in the package
directory (not inside a subdirectory) is NOT enumerated:
`get_package_data_files` only walks entries of the package directory
that are themselves directories (setup.py line 295). -/
theorem package_data_toplevel_counterexample :
    HasFile [("a.txt", FsEntry.file)] ["a.txt"]
  ∧ relJoin ["a.txt"] ∉ get_package_data_files [("a.txt", FsEntry.file)] := by
  constructor
  · exact HasFile.here _ "a.txt" (List.mem_cons_self _ _)
  · decide

/-- Claim C6 (amended): `get_package_data_files` returns a list
containing the four fixed extension-glob patterns "*.dll", "*.zip",
"*.so", "*.so.*" and, for every file located under a SUBDIRECTORY of the
package directory (component path of length at least two), that file's
path relative to the package directory; files lying directly in the
package directory itself are not enumerated individually (they are
covered only insofar as the fixed glob patterns match them). -/
theorem package_data_files_amended (cs : List (String × FsEntry))
    (path : List String) (h : HasFile cs path) (hlen : 2 ≤ path.length) :
    (∀ pat ∈ dataFilePatterns, pat ∈ get_package_data_files cs)
  ∧ relJoin path ∈ get_package_data_files cs := by
  constructor
  · intro pat hp
    unfold get_package_data_files
    exact List.mem_append_left _ hp
  · unfold get_package_data_files
    apply List.mem_append_right
    rcases hasFile_cases cs path h with ⟨n, hpath, _⟩ | ⟨n, sub, p, hpath, hmem, hsub⟩
    · subst hpath
      exact absurd hlen (by simp)
    · subst hpath
      have hmem2 := mem_walkSub_of_mem_dir cs "" n sub _ hmem
        (hasFile_mem_walkEntry sub p hsub ("" ++ n ++ "/"))
      have hje : relJoin (n :: p) = (("" : String) ++ n ++ "/") ++ relJoin p := by
        have hp := hasFile_ne_nil sub p hsub
        cases p with
        | nil => exact absurd rfl hp
        | cons q qs =>
          simp only [relJoin]
          rw [str_nil_append]
      rw [hje]
      exact hmem2

/-- Claim C6, witness: a file nested one directory deep is enumerated
by its relative path. -/
theorem package_data_files_amended_witness :
    relJoin ["sub", "f.bin"] ∈
      get_package_data_files [("sub", FsEntry.dir [("f.bin", FsEntry.file)])] :=
  (package_data_files_amended _ _
    (HasFile.deeper _ "sub" _ ["f.bin"] (List.mem_cons_self _ _)
      (HasFile.here _ "f.bin" (List.mem_cons_self _ _)))
    (by decide)).2

/-! ## Claim C7: `copy_runtime` and the missing Linux manifest key -/

/-- Claim C7: on Linux the default-deploy set contains "libDemosaic" but
`BuildSupportLinux.RuntimeFiles` has no such key, so
`self.RuntimeFiles[package]` raises `KeyError` and `copy_runtime` always
fails — for every runtime-directory content and staging state.  All
other deploy-set members do have Linux manifest entries, and on Windows
all four keys exist; for a manifest entry that is present, every file
matching the glob pattern is copied into the (freshly created)
destination, as the concrete evaluation shows. -/
theorem copy_runtime_missing_key (srcFiles : List String) (fs : StageFS) :
    List.lookup "libDemosaic" linuxRuntimeFiles = none
  ∧ (∀ pkg ∈ runtimeDefaultDeploy, pkg ≠ "libDemosaic" →
      (List.lookup pkg linuxRuntimeFiles).isSome = true)
  ∧ (∀ pkg ∈ runtimeDefaultDeploy,
      (List.lookup pkg windowsRuntimeFiles).isSome = true)
  ∧ copy_runtime srcFiles runtimeDefaultDeploy linuxRuntimeFiles fs =
      Except.error ()
  ∧ copy_runtime ["foo.so.1", "foo.so.2", "bar.txt"] ["base"]
      [("base", [("foo.so.*", "")])] ⟨[], []⟩ =
      Except.ok ⟨[""], [("", "foo.so.1"), ("", "foo.so.2")]⟩ := by
  exact ⟨rfl, by decide, by decide, rfl, rfl⟩

/-- Claim C7, witness: the failure at a concrete runtime directory and
staging state, and the presence of the "base" key. -/
theorem copy_runtime_missing_key_witness :
    copy_runtime ["libfacamera.so.2"] runtimeDefaultDeploy linuxRuntimeFiles
      ⟨[], []⟩ = Except.error ()
  ∧ (List.lookup "base" linuxRuntimeFiles).isSome = true := by
  refine ⟨(copy_runtime_missing_key ["libfacamera.so.2"] ⟨[], []⟩).2.2.2.1,
          (copy_runtime_missing_key [] ⟨[], []⟩).2.1 "base"
            (by decide) (by decide)⟩

end FaiSetup
